import Mathlib

/-!
Verification of the loan fraud dashboard (src/app1.py): a shallow embedding of
its filtering, derivation and aggregation pipeline, with theorems checking the
natural-language specification against the embedded code.

Numeric columns are modelled as rationals, timestamps as integers, and tables
as lists of records.  An operation that raises a Python exception is modelled
as returning `none` (or `Except.error`), and a `pandas` NaN arising from a
0/0 division is likewise modelled as `none`.
-/

namespace LoanFraud

/-! ### Row types of the two source tables -/

/-- One row of the loan applications table. -/
structure Loan where
  customer_id : Nat
  loan_type : String
  employment_status : String
  gender : String
  property_ownership_status : String
  loan_status : String
  fraud_type : String
  loan_amount_requested : ℚ
  cibil_score : ℚ
  monthly_income : ℚ
  applicant_age : ℚ
  debt_to_income_ratio : ℚ
  fraud_flag : Nat
  application_date : Int
deriving DecidableEq

/-- One row of the transactions table.  `state` is the derived State column
(trailing comma-separated token of `transaction_location`), present on the
rows used by the filter engine since the module derives it right after load. -/
structure Txn where
  customer_id : Nat
  device_used : String
  transaction_type : String
  transaction_location : String
  state : String
  is_international_transaction : Bool
  transaction_amount : ℚ
  fraud_flag : Nat
  transaction_date : Int
deriving DecidableEq

/-! ### Derivation layer -/

/-- Debt-to-income risk classification, embedded from `dti_category` in the
dashboard source (`if x < 20 ... elif 20 <= x <= 35 ... elif 36 <= x <= 40 ...
elif 40 < x <= 100 ... else "Out of Range"`). -/
def dti_category (x : ℚ) : String :=
  if x < 20 then "Excellent (<20)"
  else if 20 ≤ x ∧ x ≤ 35 then "Good (20–35)"
  else if 36 ≤ x ∧ x ≤ 40 then "Fair (36–40)"
  else if 40 < x ∧ x ≤ 100 then "High Risk (40–50)"
  else "Out of Range"

/-- The DTI classification exactly as the claim states it: `x < 20` →
Excellent; `20 ≤ x ≤ 35` → Good; `36 ≤ x ≤ 40` → Fair; `40 < x ≤ 100` → High
Risk; every other value (including every `x` with `35 < x < 36`) →
"Out of Range". -/
def dtiSpecC1 (x : ℚ) : String :=
  if x < 20 then "Excellent (<20)"
  else if 20 ≤ x ∧ x ≤ 35 then "Good (20–35)"
  else if 36 ≤ x ∧ x ≤ 40 then "Fair (36–40)"
  else if 40 < x ∧ x ≤ 100 then "High Risk (40–50)"
  else "Out of Range"

/-- One step of `pd.cut` interval search with right-closed bins: given the
current left edge, the remaining edges and the remaining labels, return the
label of the interval `(lo, hi]` containing `x`, if any. -/
def pdCutFrom (lo : ℚ) : List ℚ → List String → ℚ → Option String
  | hi :: bs, lab :: ls, x =>
      if lo < x ∧ x ≤ hi then some lab else pdCutFrom hi bs ls x
  | _, _, _ => none

/-- `pd.cut(x, bins, labels)` with the default `right=True` (bins are
left-open, right-closed) and the default `include_lowest=False`: a value equal
to the leftmost edge belongs to no bin. -/
def pdCut (bins : List ℚ) (labels : List String) (x : ℚ) : Option String :=
  match bins with
  | [] => none
  | lo :: rest => pdCutFrom lo rest labels x

/-- The age bin edges of the dashboard source (`age_bins`). -/
def age_bins : List ℚ := [0, 25, 35, 45, 55, 100]

/-- The age bin labels of the dashboard source (`age_labels`). -/
def age_labels : List String := ["18-25", "26-35", "36-45", "46-55", "56+"]

/-- The derived age bucket of an applicant age, embedded from
`pd.cut(filtered_loans['applicant_age'], bins=age_bins, labels=age_labels)`. -/
def age_group (x : ℚ) : Option String := pdCut age_bins age_labels x

/-- Age bucketing as the claim states it: the first bin is `[0,25]` (closed at
0, per the specification's bin list), the later bins are left-open and
right-closed, ages outside `[0,100]` are unlabeled. -/
def ageClaimC2 (x : ℚ) : Option String :=
  if 0 ≤ x ∧ x ≤ 25 then some "18-25"
  else if 25 < x ∧ x ≤ 35 then some "26-35"
  else if 35 < x ∧ x ≤ 45 then some "36-45"
  else if 45 < x ∧ x ≤ 55 then some "46-55"
  else if 55 < x ∧ x ≤ 100 then some "56+"
  else none

/-- Age bucketing as amended: all five bins are left-open and right-closed
(`(0,25], (25,35], (35,45], (45,55], (55,100]`), so age 0 — like every age
outside `(0,100]` — receives no label. -/
def ageAmendedC2 (x : ℚ) : Option String :=
  if 0 < x ∧ x ≤ 25 then some "18-25"
  else if 25 < x ∧ x ≤ 35 then some "26-35"
  else if 35 < x ∧ x ≤ 45 then some "36-45"
  else if 45 < x ∧ x ≤ 55 then some "46-55"
  else if 55 < x ∧ x ≤ 100 then some "56+"
  else none

/-! ### Filter engine -/

/-- The sidebar filter state: one (possibly empty) multiselect per categorical
dimension plus the inclusive application-date range. -/
structure Filters where
  loanTypes : List String
  employmentStatuses : List String
  genders : List String
  devices : List String
  states : List String
  startDate : Int
  endDate : Int
deriving DecidableEq

/-- The filter application section of the script, in source order: each
non-empty multiselect narrows its view with an `isin` test (an empty
selection leaves the view unchanged, mirroring Python's `if selection:`
truthiness), and the date range is applied to the loan view at the end. -/
def applyFilters (f : Filters) (loan_df : List Loan) (txn_df : List Txn) :
    List Loan × List Txn :=
  let fl1 := if f.loanTypes.isEmpty then loan_df
    else loan_df.filter (fun l => f.loanTypes.contains l.loan_type)
  let fl2 := if f.employmentStatuses.isEmpty then fl1
    else fl1.filter (fun l => f.employmentStatuses.contains l.employment_status)
  let fl3 := if f.genders.isEmpty then fl2
    else fl2.filter (fun l => f.genders.contains l.gender)
  let ft1 := if f.devices.isEmpty then txn_df
    else txn_df.filter (fun t => f.devices.contains t.device_used)
  let ft2 := if f.states.isEmpty then ft1
    else ft1.filter (fun t => f.states.contains t.state)
  let fl4 := fl3.filter (fun l =>
    decide (f.startDate ≤ l.application_date) &&
    decide (l.application_date ≤ f.endDate))
  (fl4, ft2)

/-- The claim's loan-row predicate: conjunction of the active categorical
predicates (an empty selection imposes no constraint) and the inclusive date
range. -/
def loanPred (f : Filters) (l : Loan) : Bool :=
  (f.loanTypes.isEmpty || f.loanTypes.contains l.loan_type) &&
  ((f.employmentStatuses.isEmpty || f.employmentStatuses.contains l.employment_status) &&
  ((f.genders.isEmpty || f.genders.contains l.gender) &&
  (decide (f.startDate ≤ l.application_date) &&
   decide (l.application_date ≤ f.endDate))))

/-- The claim's transaction-row predicate: conjunction of the active device
and state predicates; no date constraint. -/
def txnPred (f : Filters) (t : Txn) : Bool :=
  (f.devices.isEmpty || f.devices.contains t.device_used) &&
  (f.states.isEmpty || f.states.contains t.state)

/-! ### Aggregation pipelines -/

/-- The distinct elements of a list in order of first appearance (the keys a
hash-based group-by discovers). -/
def firstKeys {α : Type} [DecidableEq α] : List α → List α
  | [] => []
  | a :: l => a :: (firstKeys l).filter (fun b => b ≠ a)

/-- Number of occurrences of `k` in `l`. -/
def cnt {α : Type} [DecidableEq α] (k : α) (l : List α) : Nat :=
  (l.filter (fun b => b = k)).length

/-- `groupby([outer, inner]).size()`: one row per present key pair with its
row count. -/
def sizeTable {α β : Type} [DecidableEq α] [DecidableEq β]
    (rows : List (α × β)) : List ((α × β) × Nat) :=
  (firstKeys rows).map (fun k => (k, cnt k rows))

/-- The sum of the reduced values over one outer group of an aggregated
table (the `x.sum()` of the per-outer-group transform). -/
def outerTotal {α β : Type} [DecidableEq α]
    (tbl : List ((α × β) × Nat)) (o : α) : Nat :=
  ((tbl.filter (fun r => r.1.1 = o)).map (fun r => r.2)).sum

/-- `.groupby(outer)[value].transform(lambda x: x / x.sum() * 100)`: each row
gains its share of its outer group's total.  A zero group total makes the
pandas division produce NaN, modelled as `none`. -/
def pctTransform {α β : Type} [DecidableEq α]
    (tbl : List ((α × β) × Nat)) : List ((α × β) × Nat × Option ℚ) :=
  tbl.map (fun r => (r.1, r.2,
    if outerTotal tbl r.1.1 = 0 then none
    else some ((r.2 : ℚ) / (outerTotal tbl r.1.1 : ℚ) * 100)))

/-- The percentage column restricted to one outer group (a `none` percentage
is read as 0 only for summation). -/
def groupPcts {α β : Type} [DecidableEq α]
    (tbl : List ((α × β) × Nat)) (o : α) : List ℚ :=
  ((pctTransform tbl).filter (fun r => r.1.1 = o)).map (fun r => r.2.2.getD 0)

/-- The grouping rows of the "Fraud by Employment Status" chart: one
`(employment_status, fraud_type)` pair per fraudulent loan. -/
def empFraudRows (loans : List Loan) : List (String × String) :=
  (loans.filter (fun l => l.fraud_flag = 1)).map
    (fun l => (l.employment_status, l.fraud_type))

/-- The `emp_fraud` aggregation: group fraudulent loans by employment status
and fraud type, count, then take per-employment-status percentages. -/
def emp_fraud (loans : List Loan) : List ((String × String) × Nat × Option ℚ) :=
  pctTransform (sizeTable (empFraudRows loans))

/-- The grouping rows of the "Device Risk Analysis" chart: one
`(device_used, fraud_flag)` pair per transaction. -/
def deviceRiskRows (txns : List Txn) : List (String × Nat) :=
  txns.map (fun t => (t.device_used, t.fraud_flag))

/-- The `device_risk` aggregation: group transactions by device and fraud
flag, count, then take per-device percentages. -/
def device_risk (txns : List Txn) : List ((String × Nat) × Nat × Option ℚ) :=
  pctTransform (sizeTable (deviceRiskRows txns))

/-- `Series.value_counts(sort=False)`: distinct values with their counts, in
order of first appearance. -/
def valueCounts {α : Type} [DecidableEq α] (l : List α) : List (α × Nat) :=
  (firstKeys l).map (fun s => (s, cnt s l))

/-- Insert one counted value into a list already sorted by descending count,
after every entry whose count is at least as large (stable insertion). -/
def insertByCount {α : Type} (x : α × Nat) : List (α × Nat) → List (α × Nat)
  | [] => [x]
  | y :: ys => if y.2 < x.2 then x :: y :: ys else y :: insertByCount x ys

/-- Sort counted values by descending count; ties stay in input (that is,
first-appearance) order. -/
def sortByCountDesc {α : Type} (l : List (α × Nat)) : List (α × Nat) :=
  l.foldl (fun acc x => insertByCount x acc) []

/-- Normalization of one counted value into a percentage of a total
(`value_counts(normalize=True)` scaled by 100). -/
def pctOfTotal {α : Type} (total : Nat) (r : α × Nat) : α × ℚ :=
  (r.1, (r.2 : ℚ) / (total : ℚ) * 100)

/-- The derived State values of the fraudulent transactions
(`fraud_txns["State"]`). -/
def fraudStates (txns : List Txn) : List String :=
  (txns.filter (fun t => t.fraud_flag = 1)).map (fun t => t.state)

/-- The `state_fraud` aggregation:
`fraud_txns["State"].value_counts(normalize=True).head(10)` scaled by 100 —
counts of fraud-transaction states normalized by the number of fraudulent
transactions, sorted by descending frequency, truncated to 10 rows. -/
def state_fraud (txns : List Txn) : List (String × ℚ) :=
  ((sortByCountDesc (valueCounts (fraudStates txns))).take 10).map
    (pctOfTotal (fraudStates txns).length)

/-! ### Scalar summary metrics -/

/-- The "Total Fraud Rate" KPI: loan fraud fraction plus transaction fraud
fraction, each guarded to 0 on an empty view (`if total ... else 0`), times
100. -/
def totalFraudRate (loans : List Loan) (txns : List Txn) : ℚ :=
  let loan_fraud_rate : ℚ := if loans.length = 0 then 0
    else ((loans.filter (fun l => l.fraud_flag = 1)).length : ℚ) / (loans.length : ℚ)
  let txn_fraud_rate : ℚ := if txns.length = 0 then 0
    else ((txns.filter (fun t => t.fraud_flag = 1)).length : ℚ) / (txns.length : ℚ)
  (loan_fraud_rate + txn_fraud_rate) * 100

/-- The claim's formula for the Total Fraud Rate: (fraudulent loans over
total loans, 0 when there are no loans) plus (fraudulent transactions over
total transactions, 0 when there are no transactions), multiplied by 100. -/
def claimTotalFraudRateC7 (loans : List Loan) (txns : List Txn) : ℚ :=
  ((if loans.length = 0 then 0
    else ((loans.filter (fun l => l.fraud_flag = 1)).length : ℚ) / (loans.length : ℚ)) +
   (if txns.length = 0 then 0
    else ((txns.filter (fun t => t.fraud_flag = 1)).length : ℚ) / (txns.length : ℚ))) * 100

/-- The Behavioral view's "Success Rate" KPI, embedded from
`filtered_txns[filtered_txns["fraud_flag"] == 0].shape[0] / total_transactions * 100`.
The division is unguarded: on a zero-row view Python raises
ZeroDivisionError, modelled as `none`. -/
def success_rate (txns : List Txn) : Option ℚ :=
  if txns.length = 0 then none
  else some ((((txns.filter (fun t => t.fraud_flag = 0)).length : ℚ) / (txns.length : ℚ)) * 100)

/-- The Behavioral view's "Highest Transaction Location" KPI, embedded from
`filtered_txns["transaction_location"].value_counts().idxmax()`: the first
row of the count-sorted value counts.  On a zero-row view `idxmax` raises
ValueError, modelled as `none`. -/
def top_location (txns : List Txn) : Option String :=
  ((sortByCountDesc (valueCounts (txns.map (fun t => t.transaction_location)))).head?).map
    (fun r => r.1)

/-! ### Column-level model of load-time derivation and per-view mutation -/

/-- A table abstracted to its column set (in column order). -/
structure ColTable where
  cols : List String
deriving DecidableEq

/-- Whether a column exists (`"c" in df.columns`). -/
def hasCol (t : ColTable) (c : String) : Bool := t.cols.contains c

/-- Column assignment `df[c] = ...`: appends the column if new, otherwise
replaces its values leaving the column set unchanged. -/
def addCol (t : ColTable) (c : String) : ColTable :=
  if hasCol t c then t else ⟨t.cols ++ [c]⟩

/-- The module-level State derivation: if `transaction_location` is present
the State column is assigned into the loaded transactions table in place;
otherwise the table is left as loaded. -/
def deriveState (txn : ColTable) : ColTable :=
  if hasCol txn "transaction_location" then addCol txn "State" else txn

/-- The error message shown by `st.error` when the location column is
missing. -/
def errMissingLocation : String :=
  "transaction_location column not found in transactions.csv"

/-- The visible messages surfaced by the State derivation block. -/
def stateDeriveMessages (txn : ColTable) : List String :=
  if hasCol txn "transaction_location" then [] else [errMissingLocation]

/-- Column access `df[c]`: a missing column raises KeyError. -/
def getColE (t : ColTable) (c : String) : Except String Unit :=
  if hasCol t c then Except.ok () else Except.error ("KeyError: " ++ c)

/-- The script from load to the sidebar State filter: run the State
derivation block (collecting its visible messages), then build the State
multiselect from `txn_df["State"].unique()`. -/
def scriptAfterLoad (txn : ColTable) : List String × Except String Unit :=
  (stateDeriveMessages txn, getColE (deriveState txn) "State")

/-- The three dashboard views. -/
inductive Page
  | executive
  | fraud
  | behavioral
deriving DecidableEq

/-- The tables live during one script run: the two loaded source tables and
the two filtered views. -/
structure Env where
  loan_df : ColTable
  txn_df : ColTable
  filtered_loans : ColTable
  filtered_txns : ColTable
deriving DecidableEq

/-- The State derivation as a step on the environment: it writes into
`txn_df` itself, not into a copy. -/
def deriveStateStep (e : Env) : Env :=
  Env.mk e.loan_df (deriveState e.txn_df) e.filtered_loans e.filtered_txns

/-- The filter section: `filtered_loans = loan_df.copy()` /
`filtered_txns = txn_df.copy()` followed by row filters, which change rows
but no columns — at column granularity the views are fresh copies of the
sources. -/
def applyFiltersStep (e : Env) : Env :=
  Env.mk e.loan_df e.txn_df e.loan_df e.txn_df

/-- Rendering one view: the Executive view assigns `age_group` on the loan
view, the Fraud view assigns `DTI_Risk_Category` on the loan view and
re-assigns `State` on the transaction view, the Behavioral view re-assigns an
existing column (`transaction_date`).  Only the filtered views are written. -/
def renderStep (p : Page) (e : Env) : Env :=
  match p with
  | Page.executive =>
      Env.mk e.loan_df e.txn_df (addCol e.filtered_loans "age_group") e.filtered_txns
  | Page.fraud =>
      Env.mk e.loan_df e.txn_df (addCol e.filtered_loans "DTI_Risk_Category")
        (addCol e.filtered_txns "State")
  | Page.behavioral => e

/-- A session after load: the State derivation once, then one
filter-and-render pass per interaction. -/
def session (renders : List Page) (e : Env) : Env :=
  renders.foldl (fun acc p => renderStep p (applyFiltersStep acc)) (deriveStateStep e)

/-! ### Concrete data for scenario checks and witnesses -/

/-- A loan row whose only distinguishing field is the fraud flag. -/
def mkLoan (flag : Nat) : Loan :=
  ⟨0, "Personal", "Salaried", "F", "Owned", "Approved", "None", 1000, 700, 500, 30, 25, flag, 5⟩

/-- A transaction row whose only distinguishing field is the fraud flag. -/
def mkTxn (flag : Nat) : Txn :=
  ⟨0, "Mobile", "Transfer", "Mumbai, MH", "MH", false, 10, flag, 5⟩

/-- The end-to-end scenario's loan table: 100 rows, 10 fraud-flagged. -/
def scenarioLoans : List Loan :=
  List.replicate 10 (mkLoan 1) ++ List.replicate 90 (mkLoan 0)

/-- The end-to-end scenario's transaction table: 200 rows, 20 fraud-flagged. -/
def scenarioTxns : List Txn :=
  List.replicate 20 (mkTxn 1) ++ List.replicate 180 (mkTxn 0)

/-- A concrete post-load environment whose transactions table has the
location column. -/
def demoEnv9 : Env :=
  Env.mk (ColTable.mk ["loan_type", "fraud_flag"])
    (ColTable.mk ["transaction_location", "fraud_flag"])
    (ColTable.mk []) (ColTable.mk [])

/-- A small concrete grouping-row table used to exercise the aggregation
pipeline: outer group "A" has three rows (two with inner key "x", one with
"y"), outer group "B" has one row. -/
def demoRows : List (String × String) := [("A", "x"), ("A", "y"), ("A", "x"), ("B", "z")]

/-- A demo loan row for concrete filter checks. -/
def demoLoan1 : Loan := mkLoan 0

/-- A demo transaction row whose date (100) lies outside demoF1's date
range. -/
def demoTxn1 : Txn := ⟨1, "Mobile", "Payment", "Pune, MH", "MH", false, 5, 0, 100⟩

/-- A filter selection: loan type "Personal", device "Mobile", state "MH",
date range [0, 10]. -/
def demoF1 : Filters := ⟨["Personal"], [], [], ["Mobile"], ["MH"], 0, 10⟩

/-- A filter selection agreeing with demoF1 on devices and states but
differing in every loan-side dimension and in the date range. -/
def demoF2 : Filters := ⟨[], ["Salaried"], ["M"], ["Mobile"], ["MH"], 50, 60⟩

/-- A filter selection agreeing with demoF1 on every loan-side dimension but
differing in devices and states. -/
def demoF3 : Filters := ⟨["Personal"], [], [], ["Desktop"], ["KA"], 0, 10⟩

/-- A transaction row with the given derived state and fraud flag. -/
def mkTxnS (s : String) (flag : Nat) : Txn :=
  ⟨0, "Mobile", "Transfer", "City, " ++ s, s, false, 10, flag, 5⟩

/-- Four transactions: fraud states MH, KA, MH plus one non-fraud row. -/
def demoTxns6 : List Txn := [mkTxnS "MH" 1, mkTxnS "KA" 1, mkTxnS "MH" 1, mkTxnS "DL" 0]

/-! ### Helper lemmas about the group-by machinery -/

lemma mem_firstKeys {α : Type} [DecidableEq α] :
    ∀ (l : List α) (a : α), a ∈ firstKeys l ↔ a ∈ l := by
  intro l
  induction l with
  | nil => intro a; simp [firstKeys]
  | cons b t ih =>
    intro a
    by_cases hab : a = b
    · subst hab
      simp [firstKeys]
    · simp only [firstKeys, List.mem_cons, hab, false_or, List.mem_filter, ne_eq,
        decide_eq_true_eq, ih]
      tauto

lemma nodup_firstKeys {α : Type} [DecidableEq α] :
    ∀ l : List α, (firstKeys l).Nodup := by
  intro l
  induction l with
  | nil => exact List.nodup_nil
  | cons b t ih =>
    refine List.nodup_cons.mpr ⟨?_, List.Nodup.filter _ ih⟩
    intro hb
    have := (List.mem_filter.mp hb).2
    simp at this

lemma cnt_filter_of_true {α : Type} [DecidableEq α] {P : α → Bool} {k : α}
    (h : P k = true) (l : List α) : cnt k (l.filter P) = cnt k l := by
  unfold cnt
  rw [List.filter_filter]
  congr 1
  apply List.filter_congr
  intro x _
  by_cases hxk : x = k
  · subst hxk
    simp [h]
  · simp [hxk]

lemma cnt_cons_self {α : Type} [DecidableEq α] (a : α) (l : List α) :
    cnt a (a :: l) = cnt a l + 1 := by
  simp [cnt, List.filter_cons]

lemma cnt_cons_ne {α : Type} [DecidableEq α] {k a : α} (h : k ≠ a) (l : List α) :
    cnt k (a :: l) = cnt k l := by
  have ha : ¬ (a = k) := fun e => h e.symm
  simp [cnt, List.filter_cons, ha]

lemma cnt_eq_zero_of_not_mem {α : Type} [DecidableEq α] {a : α} :
    ∀ {l : List α}, a ∉ l → cnt a l = 0 := by
  intro l hl
  induction l with
  | nil => rfl
  | cons x t ih =>
    have hax : a ≠ x := fun e => hl (e ▸ List.mem_cons_self x t)
    rw [cnt_cons_ne hax]
    exact ih (fun h => hl (List.mem_cons_of_mem x h))

lemma cnt_eq_one_of_nodup_mem {α : Type} [DecidableEq α] {a : α} :
    ∀ {l : List α}, l.Nodup → a ∈ l → cnt a l = 1 := by
  intro l hn ha
  induction l with
  | nil => cases ha
  | cons x t ih =>
    rcases List.nodup_cons.mp hn with ⟨hx, hnt⟩
    by_cases hax : a = x
    · subst hax
      rw [cnt_cons_self, cnt_eq_zero_of_not_mem hx]
    · have hat : a ∈ t := by
        rcases List.mem_cons.mp ha with h | h
        · exact absurd h hax
        · exact h
      rw [cnt_cons_ne hax]
      exact ih hnt hat

lemma sum_map_add_distrib {α : Type} (f g : α → Nat) :
    ∀ l : List α, (l.map (fun k => f k + g k)).sum = (l.map f).sum + (l.map g).sum := by
  intro l
  induction l with
  | nil => rfl
  | cons a t ih =>
    simp only [List.map_cons, List.sum_cons, ih]
    omega

lemma sum_map_indicator {α : Type} [DecidableEq α] (x : α) :
    ∀ K : List α, (K.map (fun k => if k = x then 1 else 0)).sum = cnt x K := by
  intro K
  induction K with
  | nil => rfl
  | cons y t ih =>
    by_cases hyx : y = x
    · subst hyx
      rw [List.map_cons, List.sum_cons, if_pos rfl, ih, cnt_cons_self]
      omega
    · have hxy : x ≠ y := fun e => hyx e.symm
      rw [List.map_cons, List.sum_cons, if_neg hyx, ih, cnt_cons_ne hxy]
      omega

lemma sum_cnt_of_nodup_superset {α : Type} [DecidableEq α] (K : List α)
    (hK : K.Nodup) :
    ∀ m : List α, (∀ x ∈ m, x ∈ K) → (K.map (fun k => cnt k m)).sum = m.length := by
  intro m
  induction m with
  | nil =>
    intro _
    have h0 : K.map (fun k => cnt k ([] : List α)) = K.map (fun _ => 0) :=
      List.map_congr_left (fun k _ => rfl)
    simp [h0]
  | cons x t ih =>
    intro hsub
    have hx : x ∈ K := hsub x (List.mem_cons_self x t)
    have hcongr : K.map (fun k => cnt k (x :: t)) =
        K.map (fun k => cnt k t + (if k = x then 1 else 0)) := by
      apply List.map_congr_left
      intro k _
      by_cases hkx : k = x
      · subst hkx
        rw [cnt_cons_self, if_pos rfl]
      · rw [cnt_cons_ne hkx, if_neg hkx]
        omega
    rw [hcongr, sum_map_add_distrib, ih (fun y hy => hsub y (List.mem_cons_of_mem x hy)),
      sum_map_indicator, cnt_eq_one_of_nodup_mem hK hx, List.length_cons]

lemma firstKeys_sum_cnt {α : Type} [DecidableEq α] :
    ∀ l : List α, ((firstKeys l).map (fun k => cnt k l)).sum = l.length := by
  intro l
  exact sum_cnt_of_nodup_superset (firstKeys l) (nodup_firstKeys l) l
    (fun x hx => (mem_firstKeys l x).mpr hx)

lemma filter_eq_self_of_forall {α : Type} (p : α → Bool) :
    ∀ l : List α, (∀ x ∈ l, p x = true) → l.filter p = l := by
  intro l
  induction l with
  | nil => intro _; rfl
  | cons a t ih =>
    intro h
    rw [List.filter_cons, if_pos (h a (List.mem_cons_self a t))]
    rw [ih (fun x hx => h x (List.mem_cons_of_mem a hx))]

lemma firstKeys_filter {α : Type} [DecidableEq α] (q : α → Bool) :
    ∀ l : List α, (firstKeys l).filter q = firstKeys (l.filter q) := by
  intro l
  induction l with
  | nil => simp [firstKeys]
  | cons a t ih =>
    have hcomm : ∀ L : List α,
        (L.filter (fun b => b ≠ a)).filter q = (L.filter q).filter (fun b => b ≠ a) := by
      intro L
      rw [List.filter_filter, List.filter_filter]
      apply List.filter_congr
      intro x _
      exact Bool.and_comm _ _
    by_cases hqa : q a = true
    · rw [firstKeys, List.filter_cons, if_pos hqa, List.filter_cons, if_pos hqa,
        firstKeys, hcomm, ih]
    · rw [firstKeys, List.filter_cons, if_neg hqa, List.filter_cons, if_neg hqa,
        hcomm, ih]
      apply filter_eq_self_of_forall
      intro x hx
      have hxq : x ∈ t.filter q := (mem_firstKeys _ _).mp hx
      have hq : q x = true := (List.mem_filter.mp hxq).2
      have hxa : ¬ (x = a) := by
        intro e
        subst e
        exact hqa hq
      simpa using hxa

lemma filter_map_comm {α β : Type} (g : α → β) (q : β → Bool) :
    ∀ l : List α, (l.map g).filter q = (l.filter (fun a => q (g a))).map g := by
  intro l
  induction l with
  | nil => rfl
  | cons a t ih =>
    by_cases h : q (g a) = true
    · simp [List.filter_cons, h, ih]
    · simp [List.filter_cons, h, ih]

lemma cnt_pos_of_mem {α : Type} [DecidableEq α] {a : α} :
    ∀ {l : List α}, a ∈ l → 0 < cnt a l := by
  intro l hl
  induction l with
  | nil => cases hl
  | cons x t ih =>
    by_cases hx : a = x
    · subst hx
      rw [cnt_cons_self]
      omega
    · have ht : a ∈ t := by
        rcases List.mem_cons.mp hl with h | h
        · exact absurd h hx
        · exact h
      rw [cnt_cons_ne hx]
      exact ih ht

lemma cnt_le_length {α : Type} [DecidableEq α] (a : α) (l : List α) :
    cnt a l ≤ l.length :=
  List.length_filter_le _ _

lemma outerTotal_sizeTable {α β : Type} [DecidableEq α] [DecidableEq β]
    (rows : List (α × β)) (o : α) :
    outerTotal (sizeTable rows) o = (rows.filter (fun r => r.1 = o)).length := by
  unfold outerTotal sizeTable
  rw [filter_map_comm, List.map_map]
  show ((List.filter (fun a : α × β => decide (a.1 = o)) (firstKeys rows)).map
      (fun k => cnt k rows)).sum = (rows.filter (fun r => r.1 = o)).length
  rw [firstKeys_filter]
  have hmap : (firstKeys (rows.filter (fun r => r.1 = o))).map (fun k => cnt k rows) =
      (firstKeys (rows.filter (fun r => r.1 = o))).map
        (fun k => cnt k (rows.filter (fun r => r.1 = o))) := by
    apply List.map_congr_left
    intro k hk
    have hk2 := (mem_firstKeys _ _).mp hk
    have hko : (fun r : α × β => decide (r.1 = o)) k = true := (List.mem_filter.mp hk2).2
    exact (@cnt_filter_of_true (α × β) _ (fun r => decide (r.1 = o)) k hko rows).symm
  rw [hmap, firstKeys_sum_cnt]

lemma sum_map_cast_mul {α : Type} (f : α → Nat) (c : ℚ) :
    ∀ l : List α, (l.map (fun k => (f k : ℚ) * c)).sum = ((l.map f).sum : ℚ) * c := by
  intro l
  induction l with
  | nil => simp
  | cons a t ih =>
    simp only [List.map_cons, List.sum_cons, ih]
    push_cast
    ring

lemma stepFilter {γ : Type} (b : Bool) (p : γ → Bool) (d : List γ) :
    (if b = true then d else d.filter p) = d.filter (fun x => b || p x) := by
  cases b
  · simp
  · simp

lemma bool_reassoc (a b c d : Bool) : (d && (c && (b && a))) = (a && (b && (c && d))) := by
  cases a <;> cases b <;> cases c <;> cases d <;> rfl

lemma filteredLoans_eq (f : Filters) (loans : List Loan) (txns : List Txn) :
    (applyFilters f loans txns).1 = loans.filter (loanPred f) := by
  unfold applyFilters
  dsimp only
  simp only [stepFilter]
  simp only [List.filter_filter]
  exact List.filter_congr (fun x _ => bool_reassoc _ _ _ _)

lemma filteredTxns_eq (f : Filters) (loans : List Loan) (txns : List Txn) :
    (applyFilters f loans txns).2 = txns.filter (txnPred f) := by
  unfold applyFilters
  dsimp only
  simp only [stepFilter]
  simp only [List.filter_filter]
  exact List.filter_congr (fun x _ => Bool.and_comm _ _)



lemma mem_insertByCount {α : Type} {x y : α × Nat} :
    ∀ {l : List (α × Nat)}, y ∈ insertByCount x l ↔ y = x ∨ y ∈ l := by
  intro l
  induction l with
  | nil => simp [insertByCount]
  | cons z t ih =>
    unfold insertByCount
    by_cases h : z.2 < x.2
    · rw [if_pos h]
      simp only [List.mem_cons]
    · rw [if_neg h]
      simp only [List.mem_cons, ih]
      tauto

lemma pairwise_insertByCount {α : Type} {x : α × Nat} :
    ∀ {l : List (α × Nat)}, l.Pairwise (fun a b => b.2 ≤ a.2) →
      (insertByCount x l).Pairwise (fun a b => b.2 ≤ a.2) := by
  intro l hl
  induction l with
  | nil => simp [insertByCount]
  | cons z t ih =>
    rcases List.pairwise_cons.mp hl with ⟨hz, ht⟩
    unfold insertByCount
    by_cases h : z.2 < x.2
    · rw [if_pos h]
      refine List.pairwise_cons.mpr ⟨?_, hl⟩
      intro b hb
      rcases List.mem_cons.mp hb with rfl | hbt
      · omega
      · have := hz b hbt
        omega
    · rw [if_neg h]
      refine List.pairwise_cons.mpr ⟨?_, ih ht⟩
      intro b hb
      rcases mem_insertByCount.mp hb with rfl | hbt
      · omega
      · exact hz b hbt

lemma pairwise_sortByCountDesc {α : Type} (l : List (α × Nat)) :
    (sortByCountDesc l).Pairwise (fun a b => b.2 ≤ a.2) := by
  unfold sortByCountDesc
  suffices h : ∀ acc : List (α × Nat), acc.Pairwise (fun a b => b.2 ≤ a.2) →
      (l.foldl (fun acc x => insertByCount x acc) acc).Pairwise (fun a b => b.2 ≤ a.2) by
    exact h [] (by simp)
  induction l with
  | nil => intro acc h; exact h
  | cons a t ih =>
    intro acc h
    exact ih _ (pairwise_insertByCount h)

lemma mem_sortByCountDesc {α : Type} {y : α × Nat} (l : List (α × Nat)) :
    y ∈ sortByCountDesc l ↔ y ∈ l := by
  unfold sortByCountDesc
  suffices h : ∀ acc : List (α × Nat),
      (y ∈ l.foldl (fun acc x => insertByCount x acc) acc ↔ y ∈ acc ∨ y ∈ l) by
    have := h []
    simpa using this
  induction l with
  | nil => intro acc; simp
  | cons a t ih =>
    intro acc
    rw [List.foldl_cons, ih (insertByCount a acc)]
    simp only [mem_insertByCount, List.mem_cons]
    tauto


/-! ### Claims -/

/-- C1: the debt-to-income risk categorization maps every numeric DTI value
exactly as the specification's piecewise bands state, and in particular
19.9 → Excellent, 20 and 35 → Good, 36 and 40 → Fair, 41 → High Risk,
150 → Out of Range, and a value strictly between 35 and 36 (35.5) falls in no
band and yields "Out of Range". -/
theorem C1_dti_category_matches_spec :
    (∀ x : ℚ, dti_category x = dtiSpecC1 x) ∧
    dti_category (199 / 10) = "Excellent (<20)" ∧
    dti_category 20 = "Good (20–35)" ∧
    dti_category 35 = "Good (20–35)" ∧
    dti_category 36 = "Fair (36–40)" ∧
    dti_category 40 = "Fair (36–40)" ∧
    dti_category 41 = "High Risk (40–50)" ∧
    dti_category 150 = "Out of Range" ∧
    dti_category (71 / 2) = "Out of Range" := by
  refine ⟨fun x => rfl, ?_, ?_, ?_, ?_, ?_, ?_, ?_, ?_⟩ <;> norm_num [dti_category]

/-- C2, counterexample: the claim puts age 0 (an age inside [0,100], in the
claimed bin [0,25]) into the "18-25" bucket, but `pd.cut` with the default
right-closed bins excludes the leftmost edge, so the code assigns age 0 no
label at all. -/
theorem C2_age_zero_counterexample :
    age_group 0 = none ∧ ageClaimC2 0 = some "18-25" ∧
    age_group 0 ≠ ageClaimC2 0 := by
  refine ⟨?_, ?_, ?_⟩ <;> decide

/-- C2 as amended: age bucketing realizes the left-open right-closed bins
(0,25], (25,35], (35,45], (45,55], (55,100] with the five labels, so 25 →
"18-25", 26 → "26-35", 100 → "56+", and any age outside (0,100] (including
-1, 101 and the boundary age 0 itself) is absent from the bucketed output. -/
theorem C2_age_group_amended :
    (∀ x : ℚ, age_group x = ageAmendedC2 x) ∧
    age_group 25 = some "18-25" ∧
    age_group 26 = some "26-35" ∧
    age_group 100 = some "56+" ∧
    age_group (-1) = none ∧
    age_group 101 = none ∧
    age_group 0 = none := by
  refine ⟨fun x => rfl, ?_, ?_, ?_, ?_, ?_, ?_⟩ <;> decide

/-- C3: in every percentage-of-parent-group aggregation (emp_fraud,
device_risk, and the other transform pipelines all instantiate
`pctTransform (sizeTable rows)`), whenever an outer key `o` actually occurs
the outer group total is positive, each row's percentage equals its count
divided by the outer group total times 100 (defined, never NaN), and the
percentages of the outer group sum to exactly 100; and an outer group whose
total is zero has no member rows at all, so vacuously every member percentage
is 0 and nothing is computed (no NaN, no error). -/
theorem C3_group_percentages {α β : Type} [DecidableEq α] [DecidableEq β]
    (rows : List (α × β)) (o : α) :
    (o ∈ rows.map Prod.fst →
      0 < outerTotal (sizeTable rows) o ∧
      ((pctTransform (sizeTable rows)).filter (fun r => r.1.1 = o)).map (fun r => r.2.2) =
        ((pctTransform (sizeTable rows)).filter (fun r => r.1.1 = o)).map
          (fun r => some ((r.2.1 : ℚ) / (outerTotal (sizeTable rows) o : ℚ) * 100)) ∧
      (groupPcts (sizeTable rows) o).sum = 100) ∧
    (outerTotal (sizeTable rows) o = 0 →
      (pctTransform (sizeTable rows)).filter (fun r => r.1.1 = o) = []) := by
  have hT : outerTotal (sizeTable rows) o = (rows.filter (fun r => r.1 = o)).length :=
    outerTotal_sizeTable rows o
  constructor
  · intro ho
    have hTpos : 0 < outerTotal (sizeTable rows) o := by
      rw [hT]
      rcases List.mem_map.mp ho with ⟨rw0, hrw, hfst⟩
      have hmem : rw0 ∈ rows.filter (fun r => r.1 = o) :=
        List.mem_filter.mpr ⟨hrw, by simp [hfst]⟩
      exact List.length_pos.mpr (List.ne_nil_of_mem hmem)
    refine ⟨hTpos, ?_, ?_⟩
    · apply List.map_congr_left
      intro r hr
      have hro : r.1.1 = o := by
        have := (List.mem_filter.mp hr).2
        simpa using this
      have hrmem : r ∈ pctTransform (sizeTable rows) := (List.mem_filter.mp hr).1
      unfold pctTransform at hrmem
      rcases List.mem_map.mp hrmem with ⟨t, _, rfl⟩
      have hto : t.1.1 = o := hro
      show (if outerTotal (sizeTable rows) t.1.1 = 0 then (none : Option ℚ)
          else some ((t.2 : ℚ) / (outerTotal (sizeTable rows) t.1.1 : ℚ) * 100)) =
        some ((t.2 : ℚ) / (outerTotal (sizeTable rows) o : ℚ) * 100)
      rw [hto, if_neg (by omega : ¬ outerTotal (sizeTable rows) o = 0)]
    · unfold groupPcts pctTransform
      rw [filter_map_comm, List.map_map]
      show ((List.filter (fun a : (α × β) × Nat => decide (a.1.1 = o)) (sizeTable rows)).map
          (fun a : (α × β) × Nat =>
            (if outerTotal (sizeTable rows) a.1.1 = 0 then (none : Option ℚ)
             else some ((a.2 : ℚ) / (outerTotal (sizeTable rows) a.1.1 : ℚ) * 100)).getD 0)).sum = 100
      unfold sizeTable
      rw [filter_map_comm, List.map_map]
      show ((List.filter (fun k : α × β => decide (k.1 = o)) (firstKeys rows)).map
          (fun k : α × β =>
            (if outerTotal (sizeTable rows) k.1 = 0 then (none : Option ℚ)
             else some ((cnt k rows : ℚ) / (outerTotal (sizeTable rows) k.1 : ℚ) * 100)).getD 0)).sum = 100
      rw [firstKeys_filter]
      have hcongr : (firstKeys (rows.filter (fun k : α × β => k.1 = o))).map
          (fun k : α × β =>
            (if outerTotal (sizeTable rows) k.1 = 0 then (none : Option ℚ)
             else some ((cnt k rows : ℚ) / (outerTotal (sizeTable rows) k.1 : ℚ) * 100)).getD 0) =
          (firstKeys (rows.filter (fun k : α × β => k.1 = o))).map
            (fun k => (cnt k (rows.filter (fun r : α × β => r.1 = o)) : ℚ) *
              (100 / (outerTotal (sizeTable rows) o : ℚ))) := by
        apply List.map_congr_left
        intro k hk
        have hk2 := (mem_firstKeys _ _).mp hk
        have hko : k.1 = o := by simpa using (List.mem_filter.mp hk2).2
        have hcnt : cnt k (rows.filter (fun r : α × β => r.1 = o)) = cnt k rows :=
          @cnt_filter_of_true (α × β) _ (fun r => decide (r.1 = o)) k (by simp [hko]) rows
        rw [hko, if_neg (by omega : ¬ outerTotal (sizeTable rows) o = 0), Option.getD_some, hcnt]
        ring
      rw [hcongr, sum_map_cast_mul, firstKeys_sum_cnt]
      rw [← hT]
      have hne : (outerTotal (sizeTable rows) o : ℚ) ≠ 0 := by
        exact_mod_cast Nat.pos_iff_ne_zero.mp hTpos
      field_simp
  · intro h0
    rw [List.filter_eq_nil_iff]
    intro r hr hro
    unfold pctTransform at hr
    rcases List.mem_map.mp hr with ⟨t, ht, rfl⟩
    unfold sizeTable at ht
    rcases List.mem_map.mp ht with ⟨k, hk, rfl⟩
    have hko : k.1 = o := by simpa using hro
    have hkrows : k ∈ rows := (mem_firstKeys _ _).mp hk
    have hpos : 0 < cnt k rows := cnt_pos_of_mem hkrows
    have hcnt : cnt k (rows.filter (fun r : α × β => r.1 = o)) = cnt k rows :=
      @cnt_filter_of_true (α × β) _ (fun r => decide (r.1 = o)) k (by simp [hko]) rows
    have hle : cnt k rows ≤ (rows.filter (fun r : α × β => r.1 = o)).length := by
      rw [← hcnt]
      exact cnt_le_length _ _
    omega




/-- C3 witness: on the concrete table `demoRows`, group "A" occurs (total 3 >
0, percentages 200/3, 100/3 summing to 100) and group "Z" has zero total and
no rows. -/
theorem C3_witness :
    (0 < outerTotal (sizeTable demoRows) "A" ∧
     ((pctTransform (sizeTable demoRows)).filter (fun r => r.1.1 = "A")).map (fun r => r.2.2) =
       ((pctTransform (sizeTable demoRows)).filter (fun r => r.1.1 = "A")).map
         (fun r => some ((r.2.1 : ℚ) / (outerTotal (sizeTable demoRows) "A" : ℚ) * 100)) ∧
     (groupPcts (sizeTable demoRows) "A").sum = 100) ∧
    ((pctTransform (sizeTable demoRows)).filter (fun r => r.1.1 = "Z") = []) :=
  ⟨(C3_group_percentages demoRows "A").1 (by decide),
   (C3_group_percentages demoRows "Z").2 (by decide)⟩

/-- C5: for every filter selection, the filtered loan and transaction views
equal the source tables filtered by the conjunction of the active predicates
(an empty selection for a dimension imposes no constraint; the application
date must lie within the inclusive range), hence they are sublists of the
sources and contain exactly the rows satisfying the predicates. -/
theorem C5_filtered_views_exact (f : Filters) (loans : List Loan) (txns : List Txn) :
    (applyFilters f loans txns).1 = loans.filter (loanPred f) ∧
    (applyFilters f loans txns).2 = txns.filter (txnPred f) ∧
    (applyFilters f loans txns).1.Sublist loans ∧
    (applyFilters f loans txns).2.Sublist txns ∧
    (∀ l : Loan, l ∈ (applyFilters f loans txns).1 ↔ l ∈ loans ∧ loanPred f l = true) ∧
    (∀ t : Txn, t ∈ (applyFilters f loans txns).2 ↔ t ∈ txns ∧ txnPred f t = true) := by
  refine ⟨filteredLoans_eq f loans txns, filteredTxns_eq f loans txns, ?_, ?_, ?_, ?_⟩
  · rw [filteredLoans_eq]
    exact List.filter_sublist loans
  · rw [filteredTxns_eq]
    exact List.filter_sublist txns
  · intro l
    rw [filteredLoans_eq]
    exact List.mem_filter
  · intro t
    rw [filteredTxns_eq]
    exact List.mem_filter

/-- C10: the two views are filtered independently: the transaction view
depends only on the device and state selections (in particular it is never
restricted by the date range), the loan view depends only on the loan-side
selections and the date range, and every transaction satisfying the
device/state predicates stays in the view whatever its date. -/
theorem C10_views_independent (f g : Filters) (loans : List Loan) (txns : List Txn) :
    (f.devices = g.devices → f.states = g.states →
      (applyFilters f loans txns).2 = (applyFilters g loans txns).2) ∧
    (f.loanTypes = g.loanTypes → f.employmentStatuses = g.employmentStatuses →
      f.genders = g.genders → f.startDate = g.startDate → f.endDate = g.endDate →
      (applyFilters f loans txns).1 = (applyFilters g loans txns).1) ∧
    (∀ t ∈ txns, txnPred f t = true → t ∈ (applyFilters f loans txns).2) := by
  refine ⟨?_, ?_, ?_⟩
  · intro hd hs
    rw [filteredTxns_eq, filteredTxns_eq]
    have hpred : txnPred f = txnPred g := by
      funext t
      unfold txnPred
      rw [hd, hs]
    rw [hpred]
  · intro h1 h2 h3 h4 h5
    rw [filteredLoans_eq, filteredLoans_eq]
    have hpred : loanPred f = loanPred g := by
      funext l
      unfold loanPred
      rw [h1, h2, h3, h4, h5]
    rw [hpred]
  · intro t ht hp
    rw [filteredTxns_eq]
    exact List.mem_filter.mpr ⟨ht, hp⟩

/-- C10 witness: concrete filter selections — demoF1 and demoF2 differ in all
loan-side dimensions and dates yet give the same transaction view; demoF1 and
demoF3 differ in devices/states yet give the same loan view; and the
transaction dated 100, outside demoF1's range [0, 10], is in the view. -/
theorem C10_witness :
    (applyFilters demoF1 [demoLoan1] [demoTxn1]).2 = (applyFilters demoF2 [demoLoan1] [demoTxn1]).2 ∧
    (applyFilters demoF1 [demoLoan1] [demoTxn1]).1 = (applyFilters demoF3 [demoLoan1] [demoTxn1]).1 ∧
    demoTxn1 ∈ (applyFilters demoF1 [demoLoan1] [demoTxn1]).2 :=
  ⟨(C10_views_independent demoF1 demoF2 [demoLoan1] [demoTxn1]).1 rfl rfl,
   (C10_views_independent demoF1 demoF3 [demoLoan1] [demoTxn1]).2.1 rfl rfl rfl rfl rfl,
   (C10_views_independent demoF1 demoF2 [demoLoan1] [demoTxn1]).2.2 demoTxn1 (by decide) (by decide)⟩

/-- C6: the top fraudulent states aggregation groups fraudulent transactions
by State, returns at most 10 rows, sorted by descending percentage (the
stable insertion keeps ties in first-appearance order), and each row's
percentage is the state's count of fraudulent transactions divided by the
total number of fraudulent transactions times 100. -/
theorem C6_top_states (txns : List Txn) :
    (state_fraud txns).length ≤ 10 ∧
    (state_fraud txns).Pairwise (fun a b => b.2 ≤ a.2) ∧
    (∀ r ∈ state_fraud txns,
      r.2 = (cnt r.1 (fraudStates txns) : ℚ) / ((fraudStates txns).length : ℚ) * 100 ∧
      r.1 ∈ fraudStates txns) := by
  unfold state_fraud
  refine ⟨?_, ?_, ?_⟩
  · rw [List.length_map]
    exact List.length_take_le _ _
  · rw [List.pairwise_map]
    have hsorted := pairwise_sortByCountDesc (valueCounts (fraudStates txns))
    have htake := List.Pairwise.sublist (List.take_sublist 10 _) hsorted
    refine htake.imp ?_
    intro a b hab
    unfold pctOfTotal
    dsimp only
    by_cases hT : (fraudStates txns).length = 0
    · rw [hT]
      norm_num
    · have hTpos : (0:ℚ) < ((fraudStates txns).length : ℚ) := by
        exact_mod_cast Nat.pos_of_ne_zero hT
      have h1 : ((b.2 : ℚ)) / ((fraudStates txns).length : ℚ) ≤
          ((a.2 : ℚ)) / ((fraudStates txns).length : ℚ) :=
        (div_le_div_iff_of_pos_right hTpos).mpr (by exact_mod_cast hab)
      exact mul_le_mul_of_nonneg_right h1 (by norm_num)
  · intro r hr
    rcases List.mem_map.mp hr with ⟨s, hs, rfl⟩
    have hsmem : s ∈ sortByCountDesc (valueCounts (fraudStates txns)) :=
      (List.take_sublist 10 _).subset hs
    have hsvc : s ∈ valueCounts (fraudStates txns) := (mem_sortByCountDesc _).mp hsmem
    unfold valueCounts at hsvc
    rcases List.mem_map.mp hsvc with ⟨k, hk, rfl⟩
    exact ⟨rfl, (mem_firstKeys _ _).mp hk⟩

/-- C6 witness: on demoTxns6 (fraud states MH, KA, MH), the aggregation has
at most 10 rows, is sorted by descending percentage, and the MH row carries
the percentage 2/3 times 100 of a state present among the fraud states. -/
theorem C6_witness :
    (state_fraud demoTxns6).length ≤ 10 ∧
    (state_fraud demoTxns6).Pairwise (fun a b => b.2 ≤ a.2) ∧
    (pctOfTotal (fraudStates demoTxns6).length ("MH", 2)).2 =
      (cnt "MH" (fraudStates demoTxns6) : ℚ) / ((fraudStates demoTxns6).length : ℚ) * 100 ∧
    (pctOfTotal (fraudStates demoTxns6).length ("MH", 2)).1 ∈ fraudStates demoTxns6 := by
  have h := C6_top_states demoTxns6
  have hmem : pctOfTotal (fraudStates demoTxns6).length ("MH", 2) ∈ state_fraud demoTxns6 := by
    unfold state_fraud
    exact List.mem_map_of_mem _ (by decide)
  have h3 := h.2.2 _ hmem
  exact ⟨h.1, h.2.1, h3.1, h3.2⟩

/-- C7: the "Total Fraud Rate" metric equals the loan fraud fraction (0 when
there are no loans) plus the transaction fraud fraction (0 when there are no
transactions), times 100; and on the end-to-end scenario (100 loans with 10
fraud-flagged, 200 transactions with 20 fraud-flagged, no active filters) it
equals exactly 20. -/
theorem C7_total_fraud_rate :
    (∀ (loans : List Loan) (txns : List Txn),
      totalFraudRate loans txns = claimTotalFraudRateC7 loans txns) ∧
    totalFraudRate scenarioLoans scenarioTxns = 20 := by
  constructor
  · intro loans txns
    rfl
  · unfold totalFraudRate scenarioLoans scenarioTxns
    simp only [List.filter_append, List.filter_replicate, List.length_append,
      List.length_replicate, mkLoan, mkTxn]
    norm_num

/-- C4: on a zero-row filtered view the guarded metrics (such as the total
fraud rate) do degrade to 0, but the Behavioral view's success rate divides
by the transaction count with no guard — on an empty transaction view Python
raises ZeroDivisionError (modelled `none`) — and the top-location KPI's
`idxmax` raises ValueError on an empty view (modelled `none`); so not every
rate computation is guarded and the claim fails on the code. -/
theorem C4_empty_view_behavior :
    totalFraudRate [] [] = 0 ∧ success_rate [] = none ∧ top_location [] = none := by
  refine ⟨?_, rfl, rfl⟩
  unfold totalFraudRate
  norm_num

/-- C8: when `transaction_location` is absent, the load-time derivation
surfaces exactly one visible message and skips the State column — but the
very next sidebar line reads `txn_df["State"]`, which raises KeyError, so the
script run crashes instead of continuing with the State-dependent parts
absent; with the column present there is no message and no error. -/
theorem C8_missing_location_column :
    scriptAfterLoad (ColTable.mk ["transaction_date", "fraud_flag"]) =
      ([errMissingLocation], Except.error "KeyError: State") ∧
    scriptAfterLoad (ColTable.mk ["transaction_location", "transaction_date"]) =
      ([], Except.ok ()) := ⟨rfl, rfl⟩

/-- C9, counterexample: the State derivation does not produce a copy — it
assigns the new column into the loaded transactions table in place, so right
after the derivation step the source transactions table no longer has its
post-load column set. -/
theorem C9_counterexample :
    (deriveStateStep demoEnv9).txn_df ≠ demoEnv9.txn_df ∧
    (deriveStateStep demoEnv9).txn_df =
      ColTable.mk ["transaction_location", "fraud_flag", "State"] := by
  exact ⟨by decide, rfl⟩

/-- C9 as amended: the loan table is never mutated at all, and after the one
load-time in-place State derivation on the transactions table, every sequence
of filter applications and view renders leaves both source tables unchanged —
filtering and per-view derived columns are written only to the copied
views. -/
theorem C9_sources_stable_after_derivation (e : Env) (renders : List Page) :
    (session renders e).loan_df = e.loan_df ∧
    (session renders e).txn_df = (deriveStateStep e).txn_df := by
  unfold session
  have key : ∀ (ps : List Page) (acc : Env),
      ((ps.foldl (fun acc p => renderStep p (applyFiltersStep acc)) acc).loan_df = acc.loan_df ∧
       (ps.foldl (fun acc p => renderStep p (applyFiltersStep acc)) acc).txn_df = acc.txn_df) := by
    intro ps
    induction ps with
    | nil => intro acc; exact ⟨rfl, rfl⟩
    | cons p t ih =>
      intro acc
      rw [List.foldl_cons]
      cases p <;> exact ⟨(ih _).1, (ih _).2⟩
  exact ⟨(key renders (deriveStateStep e)).1, (key renders (deriveStateStep e)).2⟩

end LoanFraud
